import Mathlib

/-!
Verification of the query/ranking/proximity core of the capital-greenspace
web map (static/js/interaction/ranking.js, static/js/interaction/nearby.js).

JavaScript numbers are modelled as rationals (`ℚ`); a metric value that is
`null`, `undefined` or coerces to `NaN` is modelled as `none`.  JavaScript
strings are modelled as Lean `String`s, with the ECMAScript operations
(`toLowerCase`, `trim`, `parseInt`, `parseFloat`, the postcode regex) given
explicit character-level models restricted to ASCII input.  `Array.prototype.sort`
is stable for a total preorder comparator, so it is modelled by
`List.insertionSort`, which is stable.
-/

/-- A park record as consumed by the interaction scripts.  `metrics` maps a
data key (e.g. `"quality"`) to its coerced numeric value (`none` models a
`null`/non-numeric entry).  `facilities` is `none` when the record has no
facility array at all (the `!fullPark.facilities` guard in nearby.js).
`displayRank` is the annotation written by `applyRanking`. -/
structure Park where
  site_id : String
  name : String
  lat : ℚ
  lon : ℚ
  metrics : List (String × Option ℚ)
  facilities : Option (List String)
  displayRank : Option ℕ
deriving DecidableEq, Repr

def defaultPark : Park :=
  { site_id := "", name := "", lat := 0, lon := 0, metrics := [],
    facilities := none, displayRank := none }

instance : Inhabited Park := ⟨defaultPark⟩

/-- The value `p[dataKey]` of ranking.js, already coerced by `Number`:
`none` when the key is absent, `null`, or non-numeric. -/
def metricValue (p : Park) (key : String) : Option ℚ :=
  (p.metrics.lookup key).join

/-- The numeric value used by the ranking comparisons.  On the filtered
(`valid`) records the metric is always present, so the default is never
consulted there. -/
def pval (p : Park) (key : String) : ℚ :=
  (metricValue p key).getD 0

/-- ranking.js line 145:
`parks.filter(p => p[dataKey] !== null && !isNaN(Number(p[dataKey])))`. -/
def validParks (parks : List Park) (key : String) : List Park :=
  parks.filter (fun p => (metricValue p key).isSome)

/-- The comparator of ranking.js line 146,
`(a,b) => order === 'highest' ? b[dataKey] - a[dataKey] : a[dataKey] - b[dataKey]`,
as the ≤-style relation it sorts by. -/
def rankLE (key order : String) (a b : Park) : Prop :=
  if order = "highest" then pval b key ≤ pval a key else pval a key ≤ pval b key

instance (key order : String) : DecidableRel (rankLE key order) := fun a b =>
  if h : order = "highest" then
    decidable_of_iff (pval b key ≤ pval a key) (by rw [rankLE, if_pos h])
  else
    decidable_of_iff (pval a key ≤ pval b key) (by rw [rankLE, if_neg h])

instance (key order : String) : IsTotal Park (rankLE key order) := by
  constructor
  intro a b
  unfold rankLE
  split
  · exact le_total _ _
  · exact le_total _ _

instance (key order : String) : IsTrans Park (rankLE key order) := by
  constructor
  intro a b c h1 h2
  unfold rankLE at h1 h2 ⊢
  by_cases h : order = "highest"
  · rw [if_pos h] at h1 h2 ⊢
    exact le_trans h2 h1
  · rw [if_neg h] at h1 h2 ⊢
    exact le_trans h1 h2

instance (key order : String) : IsRefl Park (rankLE key order) := by
  constructor
  intro a
  unfold rankLE
  split
  · exact le_refl _
  · exact le_refl _

/-- ranking.js line 146: the stable in-place sort of the `valid` array. -/
def sortedParks (parks : List Park) (key order : String) : List Park :=
  List.insertionSort (rankLE key order) (validParks parks key)

/-- ranking.js line 153: `const cutoffVal = valid[num-1][dataKey]`
(the value at 1-based sorted position `num`). -/
def cutoffVal (parks : List Park) (key order : String) (num : ℕ) : ℚ :=
  pval ((sortedParks parks key order).getD (num - 1) defaultPark) key

/-- ranking.js lines 154-157: the tie-inclusive predicate
`order === 'highest' ? p[dataKey] >= cutoffVal : p[dataKey] <= cutoffVal`. -/
def cutoffCond (key order : String) (c : ℚ) (p : Park) : Bool :=
  if order = "highest" then decide (c ≤ pval p key) else decide (pval p key ≤ c)

/-- ranking.js lines 149-158: `topResults`, the tie-inclusive top-`num`
selection over the sorted valid records. -/
def selectTop (parks : List Park) (key order : String) (num : ℕ) : List Park :=
  if (validParks parks key).length ≤ num then sortedParks parks key order
  else (sortedParks parks key order).filter
    (cutoffCond key order (cutoffVal parks key order num))

/-- ranking.js lines 170-176: the rank-assignment loop.
`idx` is the 0-based loop index, `cur` the running `currentRank`, `prev`
the previous element's metric value (irrelevant at `idx = 0`). -/
def assignRanks (key : String) : ℕ → ℕ → Option ℚ → List Park → List Park
  | _, _, _, [] => []
  | idx, cur, prev, p :: rest =>
    let r := if 0 < idx ∧ metricValue p key ≠ prev then idx + 1 else cur
    { p with displayRank := some r } :: assignRanks key (idx + 1) r (metricValue p key) rest

/-- The list `topResults` as it stands after `applyRanking` has run its
rank-assignment loop: the returned, sorted, tie-inclusive selection with
`displayRank` set on every element. -/
def applyRankingResult (parks : List Park) (key order : String) (num : ℕ) : List Park :=
  assignRanks key 0 1 none (selectTop parks key order num)

/-- The element at 0-based position `i` of the ranked result. -/
def rankedAt (parks : List Park) (key order : String) (num i : ℕ) : Park :=
  (applyRankingResult parks key order num).getD i defaultPark

/-! ### Basic facts about the sorting stage -/

lemma sorted_sortedParks (parks : List Park) (key order : String) :
    List.Sorted (rankLE key order) (sortedParks parks key order) :=
  List.sorted_insertionSort _ _

lemma mem_sortedParks {parks : List Park} {key order : String} {p : Park} :
    p ∈ sortedParks parks key order ↔ p ∈ validParks parks key :=
  List.mem_insertionSort _

lemma length_sortedParks (parks : List Park) (key order : String) :
    (sortedParks parks key order).length = (validParks parks key).length :=
  List.length_insertionSort _ _

lemma cutoffCond_of_rankLE {key order : String} {p q : Park} (h : rankLE key order p q) :
    cutoffCond key order (pval q key) p = true := by
  unfold rankLE at h
  unfold cutoffCond
  by_cases ho : order = "highest"
  · rw [if_pos ho] at h ⊢
    exact decide_eq_true h
  · rw [if_neg ho] at h ⊢
    exact decide_eq_true h

/-- C1: for every record list, metric key, order and limit `num ≥ 1`: if the
filtered set has at most `num` elements they are all returned (in sorted
order); if it has more than `num`, the value at 1-based sorted position
`num` is the cutoff and the selection contains exactly the valid records
whose value is equal-to-or-better than the cutoff (`≥` for descending
"highest" order, `≤` otherwise), so every record tied with the boundary
value is included; in that case the result still has at least `num`
elements. -/
theorem rank_tie_inclusive (parks : List Park) (key order : String) (num : ℕ)
    (hnum : 1 ≤ num) :
    ((validParks parks key).length ≤ num →
        selectTop parks key order num = sortedParks parks key order) ∧
    (num < (validParks parks key).length →
        (∀ p, p ∈ selectTop parks key order num ↔
            p ∈ validParks parks key ∧
            cutoffCond key order (cutoffVal parks key order num) p = true) ∧
        num ≤ (selectTop parks key order num).length) := by
  constructor
  · intro h
    unfold selectTop
    rw [if_pos h]
  · intro h
    have hlen : (sortedParks parks key order).length = (validParks parks key).length :=
      length_sortedParks parks key order
    have hsel : selectTop parks key order num
        = (sortedParks parks key order).filter
            (cutoffCond key order (cutoffVal parks key order num)) := by
      unfold selectTop
      rw [if_neg (not_le.mpr h)]
    constructor
    · intro p
      rw [hsel, List.mem_filter]
      exact and_congr_left (fun _ => mem_sortedParks)
    · have hnum_le : num ≤ (sortedParks parks key order).length := by omega
      have hm1 : num - 1 < (sortedParks parks key order).length := by omega
      have hcut : cutoffVal parks key order num
          = pval ((sortedParks parks key order).get ⟨num - 1, hm1⟩) key := by
        unfold cutoffVal
        rw [List.getD_eq_getElem _ _ hm1, List.get_eq_getElem]
      have hall : ∀ x ∈ (sortedParks parks key order).take num,
          cutoffCond key order (cutoffVal parks key order num) x = true := by
        intro x hx
        obtain ⟨i, hi, hix⟩ := List.getElem_of_mem hx
        rw [List.length_take] at hi
        have hi1 : i < num := lt_of_lt_of_le hi (min_le_left _ _)
        have hi2 : i < (sortedParks parks key order).length := by omega
        have hgx : (sortedParks parks key order).get ⟨i, hi2⟩ = x := by
          rw [List.get_eq_getElem, ← hix]
          exact (List.getElem_take _).symm
        have hrel : rankLE key order ((sortedParks parks key order).get ⟨i, hi2⟩)
            ((sortedParks parks key order).get ⟨num - 1, hm1⟩) := by
          apply (sorted_sortedParks parks key order).rel_get_of_le
          exact Fin.mk_le_mk.mpr (by omega)
        rw [hcut, ← hgx]
        exact cutoffCond_of_rankLE hrel
      have htake : ((sortedParks parks key order).take num).length = num := by
        rw [List.length_take]
        omega
      have hcount : num ≤ List.countP
          (cutoffCond key order (cutoffVal parks key order num))
          (sortedParks parks key order) := by
        conv_rhs => rw [← List.take_append_drop num (sortedParks parks key order)]
        rw [List.countP_append]
        have : List.countP (cutoffCond key order (cutoffVal parks key order num))
            ((sortedParks parks key order).take num)
            = ((sortedParks parks key order).take num).length :=
          List.countP_eq_length.mpr hall
        omega
      rw [hsel, ← List.countP_eq_length_filter]
      exact hcount

/-! ### Facts about the rank-assignment loop -/

lemma assignRanks_length (key : String) :
    ∀ (l : List Park) (idx cur : ℕ) (prev : Option ℚ),
      (assignRanks key idx cur prev l).length = l.length := by
  intro l
  induction l with
  | nil => intro idx cur prev; rfl
  | cons p rest ih =>
    intro idx cur prev
    simp only [assignRanks, List.length_cons]
    rw [ih]

lemma assignRanks_metric (key : String) :
    ∀ (l : List Park) (idx cur : ℕ) (prev : Option ℚ) (i : ℕ),
      metricValue ((assignRanks key idx cur prev l).getD i defaultPark) key
        = metricValue (l.getD i defaultPark) key := by
  intro l
  induction l with
  | nil => intro idx cur prev i; rfl
  | cons p rest ih =>
    intro idx cur prev i
    cases i with
    | zero => rfl
    | succ j =>
      simp only [assignRanks, List.getD_cons_succ]
      exact ih _ _ _ j

lemma assignRanks_rank_le (key : String) :
    ∀ (l : List Park) (idx cur : ℕ) (prev : Option ℚ), cur ≤ idx + 1 →
      ∀ i, i < l.length →
        ∃ r : ℕ, ((assignRanks key idx cur prev l).getD i defaultPark).displayRank = some r
          ∧ r ≤ idx + i + 1 := by
  intro l
  induction l with
  | nil =>
    intro idx cur prev hcur i hi
    simp at hi
  | cons p rest ih =>
    intro idx cur prev hcur i hi
    cases i with
    | zero =>
      refine ⟨if 0 < idx ∧ metricValue p key ≠ prev then idx + 1 else cur, rfl, ?_⟩
      split
      · omega
      · omega
    | succ j =>
      have hj : j < rest.length := by
        simpa using Nat.lt_of_succ_lt_succ hi
      have hcur2 : (if 0 < idx ∧ metricValue p key ≠ prev then idx + 1 else cur)
          ≤ (idx + 1) + 1 := by
        split
        · omega
        · omega
      obtain ⟨r, hr, hrle⟩ := ih (idx + 1) _ (metricValue p key) hcur2 j hj
      refine ⟨r, ?_, by omega⟩
      simpa only [assignRanks, List.getD_cons_succ] using hr

lemma assignRanks_consec (key : String) :
    ∀ (l : List Park) (idx cur : ℕ) (prev : Option ℚ) (i : ℕ), i + 1 < l.length →
      ((assignRanks key idx cur prev l).getD (i + 1) defaultPark).displayRank
        = if metricValue (l.getD (i + 1) defaultPark) key
              ≠ metricValue (l.getD i defaultPark) key
          then some (idx + i + 2)
          else ((assignRanks key idx cur prev l).getD i defaultPark).displayRank := by
  intro l
  induction l with
  | nil =>
    intro idx cur prev i hi
    simp at hi
  | cons p rest ih =>
    intro idx cur prev i hi
    cases i with
    | zero =>
      cases rest with
      | nil => simp at hi
      | cons q rest2 =>
        simp only [assignRanks, List.getD_cons_succ, List.getD_cons_zero]
        by_cases h : metricValue q key ≠ metricValue p key
        · rw [if_pos h, if_pos ⟨Nat.succ_pos idx, h⟩]
        · rw [if_neg h, if_neg (fun hc => h hc.2)]
    | succ j =>
      have hj : j + 1 < rest.length := by
        simpa using Nat.lt_of_succ_lt_succ hi
      have := ih (idx + 1)
        (if 0 < idx ∧ metricValue p key ≠ prev then idx + 1 else cur)
        (metricValue p key) j hj
      simp only [assignRanks, List.getD_cons_succ]
      rw [this]
      have harith : idx + 1 + j + 2 = idx + (j + 1) + 2 := by omega
      rw [harith]

/-- C2: in every non-empty ranked result the first element has
`displayRank` 1, and for consecutive elements `i, i+1` of the returned
sorted sequence the ranks are equal iff the metric values are equal;
when the values differ, element `i+1` gets rank `i+2` (its 1-based
position). -/
theorem rank_dense_ranks (parks : List Park) (key order : String) (num : ℕ) :
    (applyRankingResult parks key order num ≠ [] →
      (rankedAt parks key order num 0).displayRank = some 1) ∧
    (∀ i : ℕ, i + 1 < (applyRankingResult parks key order num).length →
      ((rankedAt parks key order num (i + 1)).displayRank
          = (rankedAt parks key order num i).displayRank
        ↔ metricValue (rankedAt parks key order num (i + 1)) key
          = metricValue (rankedAt parks key order num i) key) ∧
      (metricValue (rankedAt parks key order num (i + 1)) key
          ≠ metricValue (rankedAt parks key order num i) key →
        (rankedAt parks key order num (i + 1)).displayRank = some (i + 2))) := by
  constructor
  · intro hne
    unfold rankedAt applyRankingResult at *
    cases hsel : selectTop parks key order num with
    | nil =>
      rw [hsel] at hne
      exact absurd rfl hne
    | cons p rest =>
      simp [assignRanks]
  · intro i hlen
    have hlen2 : i + 1 < (selectTop parks key order num).length := by
      rw [applyRankingResult, assignRanks_length] at hlen
      exact hlen
    have hconsec := assignRanks_consec key (selectTop parks key order num) 0 1 none i hlen2
    have hm1 := assignRanks_metric key (selectTop parks key order num) 0 1 none (i + 1)
    have hm0 := assignRanks_metric key (selectTop parks key order num) 0 1 none i
    have hzero : (0 : ℕ) + i + 2 = i + 2 := by omega
    rw [hzero] at hconsec
    have hconsec2 : (rankedAt parks key order num (i + 1)).displayRank
        = if metricValue (rankedAt parks key order num (i + 1)) key
              ≠ metricValue (rankedAt parks key order num i) key
          then some (i + 2)
          else (rankedAt parks key order num i).displayRank := by
      unfold rankedAt applyRankingResult
      rw [hconsec, hm1, hm0]
    obtain ⟨r, hr, hrle⟩ := assignRanks_rank_le key (selectTop parks key order num)
      0 1 none (by omega) i (by omega)
    have hri : (rankedAt parks key order num i).displayRank = some r := hr
    constructor
    · constructor
      · intro heq
        by_contra hne
        rw [hconsec2, if_pos hne, hri] at heq
        have : i + 2 = r := Option.some.inj heq
        omega
      · intro heq
        rw [hconsec2, if_neg (fun hc => hc heq)]
    · intro hne
      rw [hconsec2, if_pos hne]

lemma assignRanks_mem (key : String) :
    ∀ (l : List Park) (idx cur : ℕ) (prev : Option ℚ) (p : Park),
      p ∈ assignRanks key idx cur prev l → ∃ q ∈ l, p.metrics = q.metrics := by
  intro l
  induction l with
  | nil =>
    intro idx cur prev p hp
    simp [assignRanks] at hp
  | cons q rest ih =>
    intro idx cur prev p hp
    simp only [assignRanks, List.mem_cons] at hp
    cases hp with
    | inl h =>
      exact ⟨q, List.mem_cons_self _ _, by rw [h]⟩
    | inr h =>
      obtain ⟨q2, hq2, hm⟩ := ih _ _ _ p h
      exact ⟨q2, List.mem_cons_of_mem _ hq2, hm⟩

lemma selectTop_subset_valid (parks : List Park) (key order : String) (num : ℕ) :
    ∀ p ∈ selectTop parks key order num, p ∈ validParks parks key := by
  intro p hp
  unfold selectTop at hp
  split at hp
  · exact mem_sortedParks.mp hp
  · exact mem_sortedParks.mp (List.mem_of_mem_filter hp)

/-- C3: `rank` never returns a record whose value for the active metric is
null/non-numeric: every element of the ranked result has a present numeric
metric value; such records are excluded up front, not sorted last. -/
theorem rank_excludes_nonnumeric (parks : List Park) (key order : String) (num : ℕ)
    (p : Park) (hp : p ∈ applyRankingResult parks key order num) :
    (metricValue p key).isSome = true := by
  obtain ⟨q, hq, hmet⟩ := assignRanks_mem key _ 0 1 none p hp
  have hqv := selectTop_subset_valid parks key order num q hq
  unfold validParks at hqv
  have hsome := (List.mem_filter.mp hqv).2
  have : metricValue p key = metricValue q key := by
    unfold metricValue
    rw [hmet]
  rw [this]
  exact hsome

/-! ### Concrete fixtures used by the witnesses -/

def wParkA : Park :=
  { site_id := "1", name := "A", lat := 0, lon := 0,
    metrics := [("quality", some 5)], facilities := none, displayRank := none }

def wParkB : Park :=
  { site_id := "2", name := "B", lat := 0, lon := 0,
    metrics := [("quality", some 5)], facilities := none, displayRank := none }

def wParkC : Park :=
  { site_id := "3", name := "C", lat := 0, lon := 0,
    metrics := [("quality", some 3)], facilities := none, displayRank := none }

def wParkD : Park :=
  { site_id := "4", name := "D", lat := 0, lon := 0,
    metrics := [("quality", none)], facilities := none, displayRank := none }

def wCatalog : List Park := [wParkA, wParkB, wParkC, wParkD]

theorem rank_tie_inclusive_witness :
    1 ≤ 1 ∧
    (((validParks wCatalog "quality").length ≤ 1 →
        selectTop wCatalog "quality" "highest" 1 = sortedParks wCatalog "quality" "highest") ∧
    (1 < (validParks wCatalog "quality").length →
        (∀ p, p ∈ selectTop wCatalog "quality" "highest" 1 ↔
            p ∈ validParks wCatalog "quality" ∧
            cutoffCond "quality" "highest" (cutoffVal wCatalog "quality" "highest" 1) p = true) ∧
        1 ≤ (selectTop wCatalog "quality" "highest" 1).length)) :=
  ⟨by decide, rank_tie_inclusive wCatalog "quality" "highest" 1 (by decide)⟩

theorem rank_dense_ranks_witness :
    applyRankingResult wCatalog "quality" "highest" 3 ≠ [] ∧
    (rankedAt wCatalog "quality" "highest" 3 0).displayRank = some 1 ∧
    metricValue (rankedAt wCatalog "quality" "highest" 3 2) "quality"
      ≠ metricValue (rankedAt wCatalog "quality" "highest" 3 1) "quality" ∧
    (rankedAt wCatalog "quality" "highest" 3 2).displayRank = some 3 :=
  ⟨by decide,
   (rank_dense_ranks wCatalog "quality" "highest" 3).1 (by decide),
   by decide,
   ((rank_dense_ranks wCatalog "quality" "highest" 3).2 1 (by decide)).2 (by decide)⟩

theorem rank_excludes_nonnumeric_witness :
    rankedAt wCatalog "quality" "highest" 3 0 ∈ applyRankingResult wCatalog "quality" "highest" 3 ∧
    (metricValue (rankedAt wCatalog "quality" "highest" 3 0) "quality").isSome = true :=
  ⟨by decide,
   rank_excludes_nonnumeric wCatalog "quality" "highest" 3 _ (by decide)⟩

/-! ### Character-level models of the ECMAScript string operations -/

/-- ASCII model of the whitespace class used by `trim`/`parseInt`/`parseFloat`. -/
def jsIsWS (c : Char) : Bool :=
  c = ' ' ∨ c = '\t' ∨ c = '\n' ∨ c = '\r'

/-- ASCII model of `String.prototype.toLowerCase` on one character. -/
def jsLowerChar (c : Char) : Char :=
  if 'A' ≤ c ∧ c ≤ 'Z' then Char.ofNat (c.toNat + 32) else c

/-- ASCII model of `String.prototype.toLowerCase`. -/
def jsToLower (s : String) : String :=
  String.mk (s.data.map jsLowerChar)

/-- ASCII model of `String.prototype.trim`: strip leading and trailing
whitespace. -/
def jsTrim (s : String) : String :=
  String.mk (((s.data.dropWhile jsIsWS).reverse.dropWhile jsIsWS).reverse)

/-- nearby.js lines 170-171: the normalisation `x.toLowerCase().trim()`
applied to both the required facility name and each stored facility name. -/
def normFac (s : String) : String :=
  jsTrim (jsToLower s)

/-- One entry of the `result.parks` array returned by the search endpoint:
a site id plus the distance from the origin in kilometers. -/
structure SearchMatch where
  site_id : String
  distance : ℚ
deriving DecidableEq, Repr

/-- nearby.js lines 166-173, the client-side strict AND filter:
keep a match only if the full park is found in the catalog by site id,
has a facility array, and that array contains every selected facility
under case-insensitive whitespace-trimmed comparison. -/
def clientFacilityFilter (parks : List Park) (selectedFacilities : List String)
    (serverMs : List SearchMatch) : List SearchMatch :=
  serverMs.filter (fun m =>
    match parks.find? (fun p => p.site_id == m.site_id) with
    | none => false
    | some fullPark =>
      match fullPark.facilities with
      | none => false
      | some fl =>
        selectedFacilities.all (fun req =>
          fl.any (fun avail => normFac avail == normFac req)))

/-- nearby.js lines 176-179: in nearest mode keep only the first (closest)
valid match; `validMatches = [validMatches[0]]` when non-empty, which is
exactly `take 1`. -/
def finalMatches (nearestMode : Bool) (ms : List SearchMatch) : List SearchMatch :=
  if nearestMode then ms.take 1 else ms

/-- The distance-ascending order of the candidate list. -/
def distLE (a b : SearchMatch) : Prop :=
  a.distance ≤ b.distance

instance : DecidableRel distLE := fun a b =>
  inferInstanceAs (Decidable (a.distance ≤ b.distance))

instance : IsTotal SearchMatch distLE :=
  ⟨fun a b => le_total a.distance b.distance⟩

instance : IsTrans SearchMatch distLE :=
  ⟨fun _ _ _ h1 h2 => le_trans h1 h2⟩

instance : IsRefl SearchMatch distLE :=
  ⟨fun a => le_refl a.distance⟩

/-- Modelled from the spec: the candidate list produced by the server-side
search endpoint (`myflaskapp.py`, not under src/).  Spec §4.3: compute
`distanceKm(origin, record.position)` for each record and sort the
candidates by distance ascending (stable).  The distance function is
abstracted as the parameter `dist` (standing for `distanceKm origin ·`);
its haversine definition is modelled separately over the reals. -/
def serverCandidates (dist : Park → ℚ) (parks : List Park) : List SearchMatch :=
  List.insertionSort distLE
    (parks.map (fun p => { site_id := p.site_id, distance := dist p }))

/-- The search mode of spec §4.3: `{kind: nearest}` or
`{kind: withinRadius, radiusKm}`. -/
inductive SearchMode where
  | nearest : SearchMode
  | withinRadius : ℚ → SearchMode
deriving DecidableEq, Repr

/-- The proximity error taxonomy of spec §7 relevant to `search`. -/
inductive SearchError where
  | invalidRadius : SearchError
deriving DecidableEq, Repr

/-- Modelled from the spec where the server is involved: the full `search`
pipeline.  Server part (spec §4.3, `myflaskapp.py` not under src/):
distance computation, ascending sort, radius filter, and the
`InvalidRadius` failure for `radiusKm ≤ 0`.  Client part (nearby.js,
under src/): the strict AND facility filter and the nearest-mode
truncation to at most one result. -/
def searchEngine (dist : Park → ℚ) (parks : List Park) (selected : List String)
    (mode : SearchMode) : Except SearchError (List SearchMatch) :=
  match mode with
  | SearchMode.nearest =>
      Except.ok (finalMatches true
        (clientFacilityFilter parks selected (serverCandidates dist parks)))
  | SearchMode.withinRadius r =>
      if r ≤ 0 then Except.error SearchError.invalidRadius
      else Except.ok (finalMatches false
        (clientFacilityFilter parks selected
          ((serverCandidates dist parks).filter (fun m => decide (m.distance ≤ r)))))

/-- C4: `search` never returns a record lacking a required facility.  For
every catalog, selected facility set, server response and mode, every
returned match corresponds to a catalog park (looked up by site id) whose
facility list contains each required facility under the case-insensitive,
whitespace-trimmed comparison; a record missing any single required
facility is excluded. -/
theorem search_conjunctive_facilities (parks : List Park) (selected : List String)
    (serverMs : List SearchMatch) (nearestMode : Bool) (m : SearchMatch)
    (hm : m ∈ finalMatches nearestMode (clientFacilityFilter parks selected serverMs))
    (req : String) (hreq : req ∈ selected) :
    ∃ fp, parks.find? (fun p => p.site_id == m.site_id) = some fp ∧
      ∃ fl, fp.facilities = some fl ∧ ∃ avail ∈ fl, normFac avail = normFac req := by
  have hm2 : m ∈ clientFacilityFilter parks selected serverMs := by
    unfold finalMatches at hm
    split at hm
    · exact List.take_subset _ _ hm
    · exact hm
  unfold clientFacilityFilter at hm2
  simp only [List.mem_filter] at hm2
  obtain ⟨-, hpred⟩ := hm2
  split at hpred
  · exact absurd hpred (by simp)
  next fp hfind =>
    split at hpred
    · exact absurd hpred (by simp)
    next fl hfac =>
      refine ⟨fp, hfind, fl, hfac, ?_⟩
      have hall := List.all_eq_true.mp hpred req hreq
      obtain ⟨avail, ha, hbeq⟩ := List.any_eq_true.mp hall
      exact ⟨avail, ha, by simpa using hbeq⟩

def wParkP : Park :=
  { site_id := "7", name := "P", lat := 1, lon := 2,
    metrics := [], facilities := some ["Toilets ", "Parking"], displayRank := none }

def wMatchP : SearchMatch := { site_id := "7", distance := 2 }

theorem search_conjunctive_facilities_witness :
    wMatchP ∈ finalMatches true (clientFacilityFilter [wParkP] ["toilets"] [wMatchP]) ∧
    "toilets" ∈ ["toilets"] ∧
    (∃ fp, [wParkP].find? (fun p => p.site_id == wMatchP.site_id) = some fp ∧
      ∃ fl, fp.facilities = some fl ∧ ∃ avail ∈ fl, normFac avail = normFac "toilets") :=
  ⟨by decide, by decide,
   search_conjunctive_facilities [wParkP] ["toilets"] [wMatchP] true wMatchP
     (by decide) "toilets" (by decide)⟩

lemma sorted_clientFilter (dist : Park → ℚ) (parks : List Park) (selected : List String) :
    List.Sorted distLE (clientFacilityFilter parks selected (serverCandidates dist parks)) :=
  (List.sorted_insertionSort _ _).filter _

/-- C5: `search` in nearest mode returns 0 or 1 results; when the result is
non-empty, its single element is a facility-matching candidate whose
distance from the origin is minimal among all facility-matching candidates
(the first element of the stable distance-ascending order). -/
theorem search_nearest_single (dist : Park → ℚ) (parks : List Park)
    (selected : List String) (ms : List SearchMatch)
    (h : searchEngine dist parks selected SearchMode.nearest = Except.ok ms) :
    ms.length ≤ 1 ∧
    ∀ m ∈ ms, m ∈ clientFacilityFilter parks selected (serverCandidates dist parks) ∧
      ∀ m' ∈ clientFacilityFilter parks selected (serverCandidates dist parks),
        m.distance ≤ m'.distance := by
  have hms : ms = (clientFacilityFilter parks selected (serverCandidates dist parks)).take 1 := by
    unfold searchEngine finalMatches at h
    rw [if_pos rfl] at h
    exact (Except.ok.inj h).symm
  subst hms
  constructor
  · rw [List.length_take]
    exact min_le_left _ _
  · intro m hm
    cases hcf : clientFacilityFilter parks selected (serverCandidates dist parks) with
    | nil =>
      rw [hcf] at hm
      simp at hm
    | cons a t =>
      rw [hcf] at hm
      have hma : m = a := by
        simpa [List.take] using hm
      subst hma
      have hsorted := sorted_clientFilter dist parks selected
      rw [hcf] at hsorted
      constructor
      · exact List.mem_cons_self _ _
      · intro m' hm'
        cases List.mem_cons.mp hm' with
        | inl heq =>
          rw [heq]
        | inr hmem =>
          exact List.rel_of_sorted_cons hsorted m' hmem

def wParkQ : Park :=
  { site_id := "8", name := "Q", lat := 5, lon := 2,
    metrics := [], facilities := some ["Toilets"], displayRank := none }

def wMatchN : SearchMatch := { site_id := "7", distance := 1 }

instance {e a : Type} [DecidableEq e] [DecidableEq a] : DecidableEq (Except e a) := fun x y =>
  match x, y with
  | Except.ok v, Except.ok w => decidable_of_iff (v = w) (by simp)
  | Except.error v, Except.error w => decidable_of_iff (v = w) (by simp)
  | Except.ok _, Except.error _ => isFalse (by simp)
  | Except.error _, Except.ok _ => isFalse (by simp)

theorem search_nearest_single_witness :
    searchEngine (fun p => p.lat) [wParkP, wParkQ] ["toilets"] SearchMode.nearest
      = Except.ok [wMatchN] ∧
    ([wMatchN].length ≤ 1 ∧
      ∀ m ∈ [wMatchN],
        m ∈ clientFacilityFilter [wParkP, wParkQ] ["toilets"]
              (serverCandidates (fun p => p.lat) [wParkP, wParkQ]) ∧
        ∀ m' ∈ clientFacilityFilter [wParkP, wParkQ] ["toilets"]
              (serverCandidates (fun p => p.lat) [wParkP, wParkQ]),
          m.distance ≤ m'.distance) :=
  ⟨by decide,
   search_nearest_single (fun p => p.lat) [wParkP, wParkQ] ["toilets"] [wMatchN] (by decide)⟩

/-- C8: `search` in withinRadius mode fails with `InvalidRadius` exactly
when `radiusKm ≤ 0`; for any positive radius it returns an (possibly
empty) result list, and nearest mode never produces an error. -/
theorem search_radius_validation (dist : Park → ℚ) (parks : List Park)
    (selected : List String) (r : ℚ) :
    (searchEngine dist parks selected (SearchMode.withinRadius r)
        = Except.error SearchError.invalidRadius ↔ r ≤ 0) ∧
    (0 < r → ∃ ms, searchEngine dist parks selected (SearchMode.withinRadius r)
        = Except.ok ms) ∧
    (∀ e, searchEngine dist parks selected SearchMode.nearest ≠ Except.error e) := by
  refine ⟨⟨fun h => ?_, fun h => ?_⟩, fun h => ?_, fun e h => ?_⟩
  · by_contra hr
    simp only [searchEngine] at h
    rw [if_neg hr] at h
    cases h
  · simp only [searchEngine]
    rw [if_pos h]
  · simp only [searchEngine]
    rw [if_neg (not_le.mpr h)]
    exact ⟨_, rfl⟩
  · simp only [searchEngine] at h
    cases h

theorem search_radius_validation_witness :
    (0 < (1 : ℚ) ∧
      ∃ ms, searchEngine (fun p => p.lat) [wParkP] ["toilets"]
        (SearchMode.withinRadius 1) = Except.ok ms) ∧
    ((-1 : ℚ) ≤ 0 ∧
      searchEngine (fun p => p.lat) [wParkP] ["toilets"]
        (SearchMode.withinRadius (-1)) = Except.error SearchError.invalidRadius) :=
  ⟨⟨by decide,
    (search_radius_validation (fun p => p.lat) [wParkP] ["toilets"] 1).2.1 (by decide)⟩,
   ⟨by decide,
    (search_radius_validation (fun p => p.lat) [wParkP] ["toilets"] (-1)).1.mpr (by decide)⟩⟩

/-- Erase the `displayRank` annotation, leaving every other field. -/
def eraseRank (p : Park) : Park :=
  { p with displayRank := none }

/-- The catalog (`parks` global) as it stands after `applyRanking` has run:
the rank-assignment loop of ranking.js lines 170-176 writes
`p.displayRank = currentRank` in place on the selected records, which are
the very objects held by the catalog.  A catalog record that occurs in the
selection gets its `displayRank` overwritten with the assigned rank; all
other records are untouched. -/
def catalogAfterRanking (parks : List Park) (key order : String) (num : ℕ) : List Park :=
  parks.map (fun p =>
    match (applyRankingResult parks key order num).find?
        (fun q => eraseRank q == eraseRank p) with
    | some q => { p with displayRank := q.displayRank }
    | none => p)

/-- C6 counterexample: ranking a one-park catalog changes the catalog —
the selected park's `displayRank` field is written in place, so the
records are not unchanged field-for-field after a `rank` call. -/
theorem catalog_mutation_counterexample :
    catalogAfterRanking [wParkA] "quality" "highest" 1 ≠ [wParkA] := by
  decide

/-- C6 (amended): the in-place update of `applyRanking` touches only the
`displayRank` annotation — erasing `displayRank`, the catalog after a
`rank` call is unchanged field-for-field (same records, same order);
the search path performs no record update at all in the model. -/
theorem rank_mutates_only_displayRank (parks : List Park) (key order : String) (num : ℕ) :
    (catalogAfterRanking parks key order num).map eraseRank = parks.map eraseRank := by
  unfold catalogAfterRanking
  rw [List.map_map]
  apply List.map_congr_left
  intro p _
  simp only [Function.comp_apply]
  cases hf : (applyRankingResult parks key order num).find?
      (fun q => eraseRank q == eraseRank p) with
  | none => rfl
  | some q => rfl

/-! ### Model of the limit validation of applyRanking (ranking.js 111-122) -/

/-- Accumulate the numeric value of a digit string. -/
def digitsToNat : List Char → ℕ → ℕ
  | [], acc => acc
  | c :: cs, acc => digitsToNat cs (acc * 10 + (c.toNat - 48))

/-- Longest leading digit run, as an integer; `none` when there is none. -/
def parseLeadingInt (l : List Char) : Option ℤ :=
  if (l.takeWhile Char.isDigit).length = 0 then none
  else some ((digitsToNat (l.takeWhile Char.isDigit) 0 : ℕ) : ℤ)

/-- Model of ECMAScript `parseInt` (no radix argument, decimal numerals):
skip leading whitespace, optional sign, then the longest leading digit run,
stopping at the first non-digit (so `"3.7"` parses to `3`); `none` models
`NaN` (no digits at all). -/
def jsParseInt (s : String) : Option ℤ :=
  match s.data.dropWhile jsIsWS with
  | '-' :: rest => (parseLeadingInt rest).map (fun n => -n)
  | '+' :: rest => parseLeadingInt rest
  | l => parseLeadingInt l

/-- ranking.js lines 113-122: `let num = parseInt(numInput);` followed by
`if (!numInput || num < 1 || isNaN(num)) { ... return showEnterRankNumModal(); }`.
`none` models the rejection branch (the enter-rank-num modal, with the
export data cleared); `some n` models proceeding with limit `n`. -/
def validateRankNum (numInput : String) : Option ℤ :=
  match jsParseInt numInput with
  | none => none
  | some n => if numInput = "" ∨ n < 1 then none else some n

/-- C7 counterexample: the non-integer limit input `"3.7"` is not rejected;
`parseInt` truncates it and ranking proceeds with limit 3. -/
theorem rank_limit_counterexample :
    validateRankNum "3.7" = some 3 ∧ validateRankNum "3.7" ≠ none := by
  constructor
  · decide
  · decide

/-- C7 (amended): the limit input is rejected (enter-rank-num modal, the
`InvalidLimit` case) exactly when `parseInt` yields NaN (no leading integer
numeral, including the empty input) or the parsed integer is `< 1`; a
non-integer numeral such as `"3.7"` is truncated to its leading integer
part and accepted whenever that part is `≥ 1`. -/
theorem rank_limit_validation (s : String) :
    (validateRankNum s = none ↔
      jsParseInt s = none ∨ ∃ n : ℤ, jsParseInt s = some n ∧ n < 1) ∧
    (∀ n : ℤ, validateRankNum s = some n ↔ jsParseInt s = some n ∧ 1 ≤ n) := by
  have hemp : s = "" → jsParseInt s = none := by
    intro h
    subst h
    rfl
  cases hj : jsParseInt s with
  | none =>
    constructor
    · simp [validateRankNum, hj]
    · intro n
      simp [validateRankNum, hj]
  | some n =>
    have hs : ¬s = "" := by
      intro h
      rw [hemp h] at hj
      cases hj
    have hcond : (s = "" ∨ n < 1) ↔ n < 1 := by
      constructor
      · intro h
        cases h with
        | inl h => exact absurd h hs
        | inr h => exact h
      · exact Or.inr
    constructor
    · simp only [validateRankNum, hj, hcond]
      by_cases hn : n < 1
      · simp only [if_pos hn]
        constructor
        · intro _
          exact Or.inr ⟨n, rfl, hn⟩
        · intro _
          trivial
      · simp only [if_neg hn]
        constructor
        · intro h
          cases h
        · intro h
          cases h with
          | inl h => cases h
          | inr h =>
            obtain ⟨m, hm, hm1⟩ := h
            have := Option.some.inj hm
            omega
    · intro m
      simp only [validateRankNum, hj, hcond]
      by_cases hn : n < 1
      · simp only [if_pos hn]
        constructor
        · intro h
          cases h
        · intro h
          have := Option.some.inj h.1
          omega
      · simp only [if_neg hn]
        constructor
        · intro h
          refine ⟨h, ?_⟩
          have := Option.some.inj h
          omega
        · intro h
          exact h.1

theorem rank_limit_validation_witness :
    validateRankNum "2" = some 2 ∧ jsParseInt "2" = some 2 ∧ (1 : ℤ) ≤ 2 :=
  ⟨((rank_limit_validation "2").2 2).mpr ⟨by decide, by decide⟩, by decide, by decide⟩

/-! ### The haversine distance (spec §4.3) -/

/-- A latitude/longitude pair in degrees.  Floats are modelled as reals. -/
structure GeoPoint where
  lat : ℝ
  lon : ℝ

/-- Degrees to radians. -/
noncomputable def deg2rad (d : ℝ) : ℝ :=
  d * Real.pi / 180

/-- Modelled from the spec: the haversine term
`sin²(Δφ/2) + cos φ₁ · cos φ₂ · sin²(Δλ/2)` of the great-circle distance
(the server-side implementation, `myflaskapp.py`, is not under src/). -/
noncomputable def haversineTerm (a b : GeoPoint) : ℝ :=
  Real.sin (deg2rad (b.lat - a.lat) / 2) ^ 2 +
    Real.cos (deg2rad a.lat) * Real.cos (deg2rad b.lat)
      * Real.sin (deg2rad (b.lon - a.lon) / 2) ^ 2

/-- Modelled from the spec: `distanceKm(pointA, pointB)` — the haversine
great-circle distance in kilometers (mean earth radius 6371 km),
`2 R arcsin (√ term)`. -/
noncomputable def distanceKm (a b : GeoPoint) : ℝ :=
  2 * 6371 * Real.arcsin (Real.sqrt (haversineTerm a b))

lemma sin_sq_deg2rad_swap (x y : ℝ) :
    Real.sin (deg2rad (x - y) / 2) ^ 2 = Real.sin (deg2rad (y - x) / 2) ^ 2 := by
  have h : deg2rad (x - y) = -deg2rad (y - x) := by
    unfold deg2rad
    ring
  rw [h, neg_div, Real.sin_neg, neg_sq]

lemma haversineTerm_self (p : GeoPoint) : haversineTerm p p = 0 := by
  unfold haversineTerm deg2rad
  simp

lemma haversineTerm_comm (a b : GeoPoint) : haversineTerm a b = haversineTerm b a := by
  unfold haversineTerm
  rw [sin_sq_deg2rad_swap b.lat a.lat, sin_sq_deg2rad_swap b.lon a.lon]
  ring

/-- C9: the pure haversine distance satisfies `distanceKm p p = 0`,
symmetry `distanceKm a b = distanceKm b a`, and non-negativity. -/
theorem distanceKm_props :
    (∀ p : GeoPoint, distanceKm p p = 0) ∧
    (∀ a b : GeoPoint, distanceKm a b = distanceKm b a) ∧
    (∀ a b : GeoPoint, 0 ≤ distanceKm a b) := by
  refine ⟨fun p => ?_, fun a b => ?_, fun a b => ?_⟩
  · unfold distanceKm
    rw [haversineTerm_self, Real.sqrt_zero, Real.arcsin_zero, mul_zero]
  · unfold distanceKm
    rw [haversineTerm_comm]
  · unfold distanceKm
    exact mul_nonneg (by norm_num)
      (Real.arcsin_nonneg.mpr (Real.sqrt_nonneg (haversineTerm a b)))

/-! ### Model of the applyLocationSearch input step (nearby.js 98-121) -/

/-- `[A-Z]` under the case-insensitive flag: any ASCII letter. -/
def isPCLetter (c : Char) : Bool :=
  ('A' ≤ c ∧ c ≤ 'Z') ∨ ('a' ≤ c ∧ c ≤ 'z')

/-- `[A-Z\d]` under the case-insensitive flag: ASCII letter or digit. -/
def isPCAlnum (c : Char) : Bool :=
  isPCLetter c || c.isDigit

/-- The suffix `\d[A-Z]{2}$` of the UK postcode pattern. -/
def pcTail : List Char → Bool
  | [d, a, b] => d.isDigit && isPCLetter a && isPCLetter b
  | _ => false

/-- A single space followed by the suffix. -/
def pcSpaceTail : List Char → Bool
  | ' ' :: r => pcTail r
  | _ => false

/-- The part `[A-Z\d]? ?\d[A-Z]{2}$` after the mandatory district digit:
the union of the four choices of the two optional pieces. -/
def pcRest (l : List Char) : Bool :=
  pcTail l ||
    (match l with
     | [] => false
     | c :: r => (c = ' ' && pcTail r) || (isPCAlnum c && (pcTail r || pcSpaceTail r)))

/-- After a two-letter area: mandatory digit, then the rest. -/
def pcAfterTwoLetters : List Char → Bool
  | d :: r => d.isDigit && pcRest r
  | [] => false

/-- nearby.js line 113: the anchored case-insensitive UK postcode test
`/^[A-Z]{1,2}\d[A-Z\d]? ?\d[A-Z]{2}$/i.test(postcode)`. -/
def isUKPostcode (s : String) : Bool :=
  match s.data with
  | a :: b :: rest =>
    isPCLetter a &&
      ((b.isDigit && pcRest rest) || (isPCLetter b && pcAfterTwoLetters rest))
  | _ => false

/-- `10 ^ k` as a rational, used for decimal fractions. -/
def pow10 (k : ℕ) : ℚ :=
  (10 : ℚ) ^ k

/-- Model of the unsigned part of ECMAScript `parseFloat` on plain decimal
numerals: longest leading digit run, optionally followed by a point and a
fractional digit run; trailing input is ignored (prefix parse); `none`
models `NaN` (no digits in the mantissa).  Exponent notation is outside
the model. -/
def parseUnsignedFloat (l : List Char) : Option ℚ :=
  match l.dropWhile Char.isDigit with
  | '.' :: rest2 =>
    if (l.takeWhile Char.isDigit).length = 0 ∧ (rest2.takeWhile Char.isDigit).length = 0
    then none
    else some ((digitsToNat (l.takeWhile Char.isDigit) 0 : ℚ)
        + (digitsToNat (rest2.takeWhile Char.isDigit) 0 : ℚ)
          / pow10 (rest2.takeWhile Char.isDigit).length)
  | _ =>
    if (l.takeWhile Char.isDigit).length = 0 then none
    else some (digitsToNat (l.takeWhile Char.isDigit) 0 : ℚ)

/-- Model of ECMAScript `parseFloat`: skip leading whitespace, optional
sign, then the unsigned decimal numeral prefix. -/
def jsParseFloat (s : String) : Option ℚ :=
  match s.data.dropWhile jsIsWS with
  | '-' :: rest => (parseUnsignedFloat rest).map (fun q => -q)
  | '+' :: rest => parseUnsignedFloat rest
  | l => parseUnsignedFloat l

/-- Outcome of the input-reading and validation prefix of
`applyLocationSearch` (nearby.js lines 98-121): one of the three
validation modals, or proceeding into the search with the effective
distance value and mode. -/
inductive PrepResult where
  | enterPostcodeModal : PrepResult
  | invalidPostcodeModal : PrepResult
  | selectFacilityModal : PrepResult
  | proceed : Option ℚ → Bool → PrepResult
deriving DecidableEq, Repr

/-- nearby.js lines 98-121.  The distance input is read as
`rawDistance ? parseFloat(rawDistance) : 5.0` (line 103): the empty string
is falsy, so an empty distance input defaults to 5.0 km and is not an
error.  The postcode is trimmed, checked non-empty, then checked against
the UK postcode pattern; then at least one facility must be selected.
`proceed d nearestMode` carries the effective distance (`none` models a
NaN parse).  The distance is computed before the checks in the source;
everything is pure, so the order is immaterial. -/
def prepareSearch (postcodeRaw rawDistance : String) (selectedFacilities : List String)
    (nearestMode : Bool) : PrepResult :=
  if jsTrim postcodeRaw = "" then PrepResult.enterPostcodeModal
  else if !isUKPostcode (jsTrim postcodeRaw) then PrepResult.invalidPostcodeModal
  else if selectedFacilities.length = 0 then PrepResult.selectFacilityModal
  else PrepResult.proceed
    (if rawDistance = "" then some 5 else jsParseFloat rawDistance) nearestMode

/-- nearby.js line 228: the displayed search circle has
`radius: distance * 1000` meters in withinRadius (distance) mode. -/
def searchCircleRadiusMeters (distance : ℚ) : ℚ :=
  distance * 1000

/-- C10: with a valid postcode and a non-empty facility selection, an empty
distance input is not an error — the search proceeds with the default
distance of exactly 5.0 km, and that defaulted value is what is used for
the query and gives the 5000 m displayed search circle. -/
theorem default_distance_five (postcodeRaw : String) (facs : List String)
    (nearestMode : Bool)
    (h1 : jsTrim postcodeRaw ≠ "")
    (h2 : isUKPostcode (jsTrim postcodeRaw) = true)
    (h3 : facs.length ≠ 0) :
    prepareSearch postcodeRaw "" facs nearestMode
      = PrepResult.proceed (some 5) nearestMode ∧
    searchCircleRadiusMeters 5 = 5000 := by
  constructor
  · unfold prepareSearch
    rw [if_neg h1, if_neg (by rw [h2]; decide), if_neg h3, if_pos rfl]
  · unfold searchCircleRadiusMeters
    norm_num

theorem default_distance_five_witness :
    jsTrim "EH1 1AA" ≠ "" ∧
    isUKPostcode (jsTrim "EH1 1AA") = true ∧
    (["Toilets"] : List String).length ≠ 0 ∧
    (prepareSearch "EH1 1AA" "" ["Toilets"] false
        = PrepResult.proceed (some 5) false ∧
      searchCircleRadiusMeters 5 = 5000) :=
  ⟨by decide, by decide, by decide,
   default_distance_five "EH1 1AA" ["Toilets"] false (by decide) (by decide) (by decide)⟩
